import Mathlib

/-!
Shallow embedding of `src/ml/binary_classification/decision_tree.py`.

The script orchestrates third-party libraries; the embedding mirrors its
structure: binary labels are `List Bool`, feature rows are `List ℚ`, scores
are rationals, and every file the script writes becomes a `FileWrite` event
in the returned trace.  The hyperparameter search's randomness is made
explicit as a stream of `Draw` values (one per trial), and the fitting of a
scikit-learn pipeline — delegated library code — is an abstract `Fit`
argument.  Library metric functions are embedded by their documented
formulas, with a zero-division result of 0 matching scikit-learn's default
for precision/recall/F-beta.
-/

namespace DecisionTree

/-- A feature row of the tabular dataset. -/
abbrev Row := List ℚ

/-- Number of true positives among aligned (truth, prediction) pairs. -/
def countTP (y_true y_pred : List Bool) : ℕ :=
  ((y_true.zip y_pred).filter (fun p => p.1 && p.2)).length

/-- Number of false positives. -/
def countFP (y_true y_pred : List Bool) : ℕ :=
  ((y_true.zip y_pred).filter (fun p => !p.1 && p.2)).length

/-- Number of false negatives. -/
def countFN (y_true y_pred : List Bool) : ℕ :=
  ((y_true.zip y_pred).filter (fun p => p.1 && !p.2)).length

/-- Number of true negatives. -/
def countTN (y_true y_pred : List Bool) : ℕ :=
  ((y_true.zip y_pred).filter (fun p => !p.1 && !p.2)).length

/-- Embeds `sklearn.metrics.precision_score` for binary labels: TP / (TP + FP),
0 when no positive prediction exists (the library's zero-division default). -/
def precision_score (y_true y_pred : List Bool) : ℚ :=
  let tp := countTP y_true y_pred
  let fp := countFP y_true y_pred
  if tp + fp = 0 then 0 else (tp : ℚ) / ((tp : ℚ) + (fp : ℚ))

/-- Embeds `sklearn.metrics.recall_score` for binary labels: TP / (TP + FN),
0 when no positive truth exists. -/
def recall_score (y_true y_pred : List Bool) : ℚ :=
  let tp := countTP y_true y_pred
  let fn := countFN y_true y_pred
  if tp + fn = 0 then 0 else (tp : ℚ) / ((tp : ℚ) + (fn : ℚ))

/-- Embeds `sklearn.metrics.fbeta_score` for binary labels:
(1 + β²)·TP / ((1 + β²)·TP + β²·FN + FP), 0 on a zero denominator. -/
def fbeta_score (beta : ℚ) (y_true y_pred : List Bool) : ℚ :=
  let tp : ℚ := countTP y_true y_pred
  let fp : ℚ := countFP y_true y_pred
  let fn : ℚ := countFN y_true y_pred
  let den := (1 + beta ^ 2) * tp + beta ^ 2 * fn + fp
  if den = 0 then 0 else (1 + beta ^ 2) * tp / den

/-- Embeds `sklearn.metrics.cohen_kappa_score` for binary labels:
(pₒ - pₑ)/(1 - pₑ); a degenerate denominator is mapped to 0.  (No claim
examines this value; it only occupies its column of the metrics row.) -/
def cohen_kappa_score (y_true y_pred : List Bool) : ℚ :=
  let tp : ℚ := countTP y_true y_pred
  let fp : ℚ := countFP y_true y_pred
  let fn : ℚ := countFN y_true y_pred
  let tn : ℚ := countTN y_true y_pred
  let n := tp + fp + fn + tn
  if n = 0 then 0 else
    let po := (tp + tn) / n
    let pe := ((tp + fp) * (tp + fn) + (fn + tn) * (fp + tn)) / (n * n)
    if pe = 1 then 0 else (po - pe) / (1 - pe)

/-- Embeds `sklearn.metrics.balanced_accuracy_score`: mean of the per-class recalls
over the classes present in `y_true`.  (No claim examines this value.) -/
def balanced_accuracy_score (y_true y_pred : List Bool) : ℚ :=
  let tp : ℚ := countTP y_true y_pred
  let fp : ℚ := countFP y_true y_pred
  let fn : ℚ := countFN y_true y_pred
  let tn : ℚ := countTN y_true y_pred
  let rs := (if true ∈ y_true then [tp / (tp + fn)] else [])
    ++ (if false ∈ y_true then [tn / (tn + fp)] else [])
  if rs.length = 0 then 0 else rs.sum / rs.length

/-- Embeds `sklearn.metrics.average_precision_score` with the 0/1 predictions used
as scores: two thresholds, AP = R₁·P₁ + (1 - R₁)·(pos/n); degenerate
denominators are mapped to 0.  (No claim examines this value.) -/
def average_precision_score (y_true y_pred : List Bool) : ℚ :=
  let tp : ℚ := countTP y_true y_pred
  let fp : ℚ := countFP y_true y_pred
  let fn : ℚ := countFN y_true y_pred
  let tn : ℚ := countTN y_true y_pred
  let n := tp + fp + fn + tn
  let pos := tp + fn
  if pos = 0 ∨ n = 0 then 0 else
    if tp + fp = 0 then pos / n
    else (tp / pos) * (tp / (tp + fp)) + (1 - tp / pos) * (pos / n)

/-- The labels `sklearn.metrics.confusion_matrix` uses: the sorted distinct
labels occurring in `y_true` or `y_pred` (for booleans, false before true). -/
def labelsPresent (y_true y_pred : List Bool) : List Bool :=
  (if false ∈ y_true ++ y_pred then [false] else [])
    ++ (if true ∈ y_true ++ y_pred then [true] else [])

/-- Count of aligned pairs equal to `(a, b)`, over an explicit pair list. -/
def pairCount (zs : List (Bool × Bool)) (a b : Bool) : ℕ :=
  (zs.filter (fun p => p.1 == a && p.2 == b)).length

/-- Entry (a, b) of the confusion matrix: samples with truth `a` and
prediction `b`. -/
def cmCount (y_true y_pred : List Bool) (a b : Bool) : ℕ :=
  pairCount (y_true.zip y_pred) a b

/-- Embeds `sklearn.metrics.confusion_matrix`: row `a`, column `b` counts samples
with truth `a` and prediction `b`, over the labels present in the input. -/
def confusion_matrix (y_true y_pred : List Bool) : List (List ℕ) :=
  (labelsPresent y_true y_pred).map (fun a =>
    (labelsPresent y_true y_pred).map (fun b => cmCount y_true y_pred a b))

/-- One cell of the saved hyperparameters row (the dict of lines 150–154 has
an int, two floats, and an optional string). -/
inductive HpValue where
  | int (n : ℤ)
  | float (q : ℚ)
  | cw (w : Option String)
deriving DecidableEq, Repr

/-- A sampled hyperparameter set of the decision tree. -/
structure Params where
  max_depth : ℤ
  min_samples_split : ℚ
  min_samples_leaf : ℚ
  class_weight : Option String
deriving DecidableEq, Repr

/-- The content of one file the script writes. -/
inductive Artifact where
  | hyperparametersCsv (row : List (String × HpValue))
  | metricsCsv (row : List (String × ℚ))
  | featureImportancesCsv (rows : List (String × ℚ))
  | confusionMatrixTxt (cm : List (List ℕ))
  | modelJoblib (hyperparameters : Params)
deriving DecidableEq, Repr

/-- One file-write event: the path written to and the content written. -/
structure FileWrite where
  path : String
  artifact : Artifact
deriving DecidableEq, Repr

/-- The metrics row built by `compute_and_save_metrics` (lines 81–99). -/
def metricsRow (y_true y_pred : List Bool) (beta : ℚ) : List (String × ℚ) :=
  [("Precision", precision_score y_true y_pred),
   ("Recall", recall_score y_true y_pred),
   ("Fbeta Score", fbeta_score beta y_true y_pred),
   ("Cohen Kappa", cohen_kappa_score y_true y_pred),
   ("Balanced Accuracy", balanced_accuracy_score y_true y_pred),
   ("Average Precision", average_precision_score y_true y_pred)]

/-- Embeds `compute_and_save_metrics` (lines 63–103): computes the six metrics and
writes them as one CSV row to `save_path`. -/
def compute_and_save_metrics (y_true y_pred : List Bool) (beta : ℚ)
    (save_path : String) : FileWrite :=
  ⟨save_path, .metricsCsv (metricsRow y_true y_pred beta)⟩

/-- Embeds the `sort_values("Importance", ascending=False)` of line 119: sort rows by
descending importance (a stable sort; pandas leaves tie order unspecified,
which no claim depends on). -/
def sortByImportanceDesc (rows : List (String × ℚ)) : List (String × ℚ) :=
  rows.mergeSort (fun a b => decide (b.2 ≤ a.2))

/-- Embeds `calculate_and_save_feature_importances` (lines 106–121): pair feature
names with the tree's importances, sort descending, write as CSV. -/
def calculate_and_save_feature_importances (feature_names : List String)
    (importances : List ℚ) (save_path : String) : FileWrite :=
  ⟨save_path, .featureImportancesCsv
    (sortByImportanceDesc (feature_names.zip importances))⟩

/-- Embeds `save_confusion_matrix` (lines 124–126): write the confusion matrix. -/
def save_confusion_matrix (y_true y_pred : List Bool) (filename : String) :
    FileWrite :=
  ⟨filename, .confusionMatrixTxt (confusion_matrix y_true y_pred)⟩

/-- The raw random numbers one optuna trial consumes: one for each of the
four `trial.suggest_*` calls of lines 41–44. -/
structure Draw where
  max_depth_raw : ℕ
  min_samples_split_raw : ℚ
  min_samples_leaf_raw : ℚ
  class_weight_raw : Bool

/-- Embeds `trial.suggest_int(lo, hi)`: an integer in [lo, hi] derived from the
raw draw. -/
def suggest_int (lo hi : ℤ) (raw : ℕ) : ℤ :=
  lo + (raw : ℤ) % (hi - lo + 1)

/-- Embeds `trial.suggest_float(lo, hi)`: a rational in [lo, hi] derived from the
raw draw (the raw value is clamped into [0, 1] and rescaled). -/
def suggest_float (lo hi : ℚ) (raw : ℚ) : ℚ :=
  lo + (hi - lo) * min (max raw 0) 1

/-- Embeds `trial.suggest_categorical("class_weight", [None, "balanced"])`: one of
the two choices, selected by the raw draw. -/
def suggest_categorical (raw : Bool) : Option String :=
  if raw then some ("balanced") else none

/-- The hyperparameter sampling of lines 41–44 of `objective`. -/
def sample_params (t : Draw) : Params :=
  { max_depth := suggest_int 1 50 t.max_depth_raw
    min_samples_split := suggest_float (1 / 1000) 1 t.min_samples_split_raw
    min_samples_leaf := suggest_float (1 / 1000) (1 / 2) t.min_samples_leaf_raw
    class_weight := suggest_categorical t.class_weight_raw }

/-- A fitted scaler-plus-decision-tree pipeline, abstracted: its predictions
on rows and its feature importances (the fitting itself is scikit-learn
library code, outside this repository). -/
structure FittedModel where
  predict : Row → Bool
  feature_importances : List ℚ

/-- The abstract training routine: hyperparameters and training data to a
fitted pipeline. -/
abbrev Fit := Params → List Row → List Bool → FittedModel

/-- The test-fold boundaries of scikit-learn's default `KFold(n_splits=k)`
on `n` samples: fold `i` is the consecutive block starting at
`i*(n/k) + min i (n%k)` of size `n/k` plus one for the first `n%k` folds. -/
def kfold_test_bounds (n k : ℕ) : List (ℕ × ℕ) :=
  (List.range k).map (fun i =>
    (i * (n / k) + min i (n % k), n / k + if i < n % k then 1 else 0))

/-- Embeds `sklearn.model_selection.cross_val_score(model, X, y, cv, scoring)`:
for each test fold, fit on the remaining samples, predict the fold, and
score the predictions against the fold's labels. -/
def cross_val_score (fit_predict : List Row → List Bool → List Row → List Bool)
    (X : List Row) (y : List Bool) (cv : ℕ)
    (scorer : List Bool → List Bool → ℚ) : List ℚ :=
  (kfold_test_bounds X.length cv).map (fun b =>
    let X_val := (X.drop b.1).take b.2
    let y_val := (y.drop b.1).take b.2
    let X_tr := X.take b.1 ++ X.drop (b.1 + b.2)
    let y_tr := y.take b.1 ++ y.drop (b.1 + b.2)
    scorer y_val (fit_predict X_tr y_tr X_val))

/-- The per-fold F-beta scores inside `objective` (lines 56–58):
`cross_val_score(model, X, y, cv=5, scoring=make_scorer(fbeta_score, beta))`. -/
def objective_fold_scores (fit : Fit) (X : List Row) (y : List Bool)
    (beta : ℚ) (p : Params) : List ℚ :=
  cross_val_score (fun X_tr y_tr X_val => X_val.map (fit p X_tr y_tr).predict)
    X y 5 (fun yt yp => fbeta_score beta yt yp)

/-- Arithmetic mean of a list of rationals (`.mean()` of line 58). -/
def listMean (l : List ℚ) : ℚ := l.sum / l.length

/-- Embeds `objective` (lines 39–59): sample hyperparameters from the trial's
draws, build the pipeline, and return the mean cross-validated F-beta
score.  The sampled params are returned alongside the score, as optuna
records them on the trial object. -/
def objective (fit : Fit) (X : List Row) (y : List Bool) (beta : ℚ)
    (t : Draw) : Params × ℚ :=
  let p := sample_params t
  (p, listMean (objective_fold_scores fit X y beta p))

/-- The 100 trials of `study.optimize(..., n_trials=100)` (line 141), the
i-th trial consuming the i-th element of the draw stream. -/
def study_trials (fit : Fit) (X : List Row) (y : List Bool) (beta : ℚ)
    (stream : ℕ → Draw) : List (Params × ℚ) :=
  (List.range 100).map (fun i => objective fit X y beta (stream i))

/-- Embeds `study.best_trial` of a study created with `direction="maximize"`
(line 140): the first trial whose value no later trial strictly exceeds. -/
def best_trial : List (Params × ℚ) → Option (Params × ℚ)
  | [] => none
  | t :: ts => some (ts.foldl (fun b t2 => if b.2 < t2.2 then t2 else b) t)

/-- The hyperparameters row saved to CSV (lines 150–159). -/
def hyperparameters_row (p : Params) : List (String × HpValue) :=
  [("max_depth", .int p.max_depth),
   ("min_samples_split", .float p.min_samples_split),
   ("min_samples_leaf", .float p.min_samples_leaf),
   ("class_weight", .cw p.class_weight)]

/-- Embeds `decision_tree_experiment` (lines 129–200): run the 100-trial search,
save the best hyperparameters, refit on the full training split, and save
metrics, feature importances, confusion matrix, and the model, in source
order.  Returns the trace of file writes. -/
def decision_tree_experiment (fit : Fit) (stream : ℕ → Draw)
    (X_train : List Row) (y_train : List Bool)
    (X_test : List Row) (y_test : List Bool)
    (feature_names : List String) (beta : ℚ)
    (experiment_dictionary model_directory experiment_number : String) :
    List FileWrite :=
  match best_trial (study_trials fit X_train y_train beta stream) with
  | none => []
  | some best =>
    let best_params := best.1
    let model := fit best_params X_train y_train
    let y_pred := X_test.map model.predict
    ⟨s!"results/{experiment_dictionary}/hyperparameters.csv",
      .hyperparametersCsv (hyperparameters_row best_params)⟩ ::
    compute_and_save_metrics y_test y_pred beta
      (s!"results/{experiment_dictionary}/metrics.csv") ::
    calculate_and_save_feature_importances feature_names
      model.feature_importances
      (s!"results/{experiment_dictionary}/feature_importances.csv") ::
    save_confusion_matrix y_test y_pred
      (s!"results/{experiment_dictionary}/confusion_matrix.txt") ::
    [⟨s!"models/{model_directory}/{experiment_number}.joblib",
      .modelJoblib best_params⟩]

/-- The constant arguments of one `decision_tree_experiment` call inside
`run_decision_tree`. -/
structure ExperimentArgs where
  beta : ℚ
  experiment_dictionary : String
  model_directory : String
  experiment_number : String
deriving DecidableEq, Repr

/-- The four calls of lines 213–259, in source order. -/
def run_decision_tree_args : List ExperimentArgs :=
  [⟨2, "decision_tree_experiment1", "decision_tree", "1"⟩,
   ⟨2, "decision_tree_experiment2", "decision_tree", "2"⟩,
   ⟨2, "decision_tree_experiment3", "decision_tree", "3"⟩,
   ⟨2, "decision_tree_experiment4", "decision_tree", "4"⟩]

/-- One experiment's train/test split, as produced by the external
`create_experimentN_dataset` collaborators (an unseen module), together
with the training columns' names. -/
structure Dataset where
  X_train : List Row
  y_train : List Bool
  X_test : List Row
  y_test : List Bool
  feature_names : List String

/-- Embeds `run_decision_tree` (lines 203–259), success path: run the four
experiments in order with their per-experiment datasets and draw streams,
concatenating the four write traces. -/
def run_decision_tree (fit : Fit) (streams : ℕ → ℕ → Draw)
    (datasets : ℕ → Dataset) : List FileWrite :=
  (run_decision_tree_args.enum.map (fun e =>
    let ds := datasets e.1
    decision_tree_experiment fit (streams e.1) ds.X_train ds.y_train
      ds.X_test ds.y_test ds.feature_names e.2.beta
      e.2.experiment_dictionary e.2.model_directory
      e.2.experiment_number)).flatten

/-- What one experiment did before `run_decision_tree` moved on: the file
writes it performed, and the uncaught exception it raised, if any (the
writes happened before the exception). -/
structure ExperimentOutcome where
  writes : List FileWrite
  error : Option String

/-- Sequential execution with no exception handler: each experiment's
writes land before the next one starts, and the first exception aborts
everything after it while keeping the writes already made. -/
def run_experiments_seq : List ExperimentOutcome → List FileWrite × Option String
  | [] => ([], none)
  | o :: rest =>
    match o.error with
    | some e => (o.writes, some e)
    | none =>
      let r := run_experiments_seq rest
      (o.writes ++ r.1, r.2)

/-- The four experiments of `run_decision_tree` in source order (indices
0–3 stand for experiments 1–4). -/
def experiments_list (outcomes : ℕ → ExperimentOutcome) :
    List ExperimentOutcome :=
  [outcomes 0, outcomes 1, outcomes 2, outcomes 3]

/-- Embeds `run_decision_tree` (lines 203–259) as exception-propagating control
flow: the body has no try/except, so the four experiments run in order
until the first failure. -/
def run_decision_tree_trace (outcomes : ℕ → ExperimentOutcome) :
    List FileWrite × Option String :=
  run_experiments_seq (experiments_list outcomes)

/-! ### Helper lemmas about the embedded metrics -/

lemma mem_zip_self (y : List Bool) : ∀ p ∈ y.zip y, p.1 = p.2 := by
  induction y with
  | nil => simp
  | cons a l ih =>
    intro p hp
    rw [List.zip_cons_cons] at hp
    rcases List.mem_cons.mp hp with h | h
    · rw [h]
    · exact ih p h

lemma countTP_self (y : List Bool) : countTP y y = y.count true := by
  unfold countTP
  induction y with
  | nil => rfl
  | cons a l ih =>
    rw [List.zip_cons_cons, List.filter_cons]
    cases a <;> simp [List.count_cons, ih]

lemma countFP_self (y : List Bool) : countFP y y = 0 := by
  unfold countFP
  rw [List.length_eq_zero, List.filter_eq_nil_iff]
  intro p hp
  rw [mem_zip_self y p hp]
  simp

lemma countFN_self (y : List Bool) : countFN y y = 0 := by
  unfold countFN
  rw [List.length_eq_zero, List.filter_eq_nil_iff]
  intro p hp
  rw [mem_zip_self y p hp]
  simp

lemma count_true_pos (y : List Bool) (hpos : true ∈ y) : 0 < y.count true :=
  List.count_pos_iff.mpr hpos

lemma precision_score_self (y : List Bool) (hpos : true ∈ y) :
    precision_score y y = 1 := by
  have hc := count_true_pos y hpos
  unfold precision_score
  rw [countTP_self, countFP_self, if_neg (by omega)]
  push_cast
  rw [add_zero, div_self (by exact_mod_cast hc.ne')]

lemma recall_score_self (y : List Bool) (hpos : true ∈ y) :
    recall_score y y = 1 := by
  have hc := count_true_pos y hpos
  unfold recall_score
  rw [countTP_self, countFN_self, if_neg (by omega)]
  push_cast
  rw [add_zero, div_self (by exact_mod_cast hc.ne')]

lemma fbeta_score_self (beta : ℚ) (y : List Bool) (hpos : true ∈ y) :
    fbeta_score beta y y = 1 := by
  have hc := count_true_pos y hpos
  have htp : (0 : ℚ) < (y.count true : ℚ) := by exact_mod_cast hc
  have hb : (0 : ℚ) < 1 + beta ^ 2 := by positivity
  unfold fbeta_score
  rw [countTP_self, countFP_self, countFN_self]
  push_cast
  rw [mul_zero, add_zero, add_zero, if_neg (by positivity),
    div_self (by positivity)]

lemma countTP_eq_zero_of_all_ne (y_true y_pred : List Bool)
    (h : ∀ p ∈ y_true.zip y_pred, p.1 ≠ p.2) : countTP y_true y_pred = 0 := by
  unfold countTP
  rw [List.length_eq_zero, List.filter_eq_nil_iff]
  intro p hp
  have hne := h p hp
  rcases p with ⟨x, z⟩
  cases x <;> cases z <;> simp_all

lemma precision_score_of_tp_zero (y_true y_pred : List Bool)
    (h : countTP y_true y_pred = 0) : precision_score y_true y_pred = 0 := by
  simp [precision_score, h]

lemma recall_score_of_tp_zero (y_true y_pred : List Bool)
    (h : countTP y_true y_pred = 0) : recall_score y_true y_pred = 0 := by
  simp [recall_score, h]

lemma cmCount_self_offdiag (y : List Bool) (a b : Bool) (hab : a ≠ b) :
    cmCount y y a b = 0 := by
  unfold cmCount pairCount
  rw [List.length_eq_zero, List.filter_eq_nil_iff]
  intro p hp
  have hpp := mem_zip_self y p hp
  rcases p with ⟨x, z⟩
  cases x <;> cases z <;> cases a <;> cases b <;> simp_all

lemma labelsPresent_nodup (y_true y_pred : List Bool) :
    (labelsPresent y_true y_pred).Nodup := by
  unfold labelsPresent
  split <;> split <;> simp

/-- Off-diagonal entries (read with out-of-range defaults 0) of the
confusion matrix of a prediction equal to the truth are zero. -/
lemma confusion_matrix_self_offdiag (y : List Bool) (i j : ℕ) (hij : i ≠ j) :
    ((confusion_matrix y y).getD i []).getD j 0 = 0 := by
  unfold confusion_matrix
  simp only [List.getD_eq_getElem?_getD, List.getElem?_map]
  by_cases hi : i < (labelsPresent y y).length
  · rw [List.getElem?_eq_getElem hi]
    simp only [Option.map_some', Option.getD_some, List.getElem?_map]
    by_cases hj : j < (labelsPresent y y).length
    · rw [List.getElem?_eq_getElem hj]
      simp only [Option.map_some', Option.getD_some]
      refine cmCount_self_offdiag y _ _ (fun hc => hij ?_)
      exact ((labelsPresent_nodup y y).getElem_inj_iff).mp hc
    · rw [List.getElem?_eq_none
        (show (labelsPresent y y).length ≤ j by omega)]
      simp
  · rw [List.getElem?_eq_none
      (show (labelsPresent y y).length ≤ i by omega)]
    simp

/-! ### Claim theorems C6 and C7 -/

/-- Claim C6: for every non-empty binary label vector with at least one
positive label, `compute_and_save_metrics` on `y_pred = y_true` writes
precision = recall = F-beta = 1 in the metrics row, and the confusion
matrix of the same pair has all off-diagonal entries zero. -/
theorem C6_perfect_prediction (y : List Bool) (_hne : y ≠ [])
    (hpos : true ∈ y) (beta : ℚ) (path : String) :
    compute_and_save_metrics y y beta path
      = ⟨path, .metricsCsv (metricsRow y y beta)⟩ ∧
    (metricsRow y y beta).lookup ("Precision") = some 1 ∧
    (metricsRow y y beta).lookup ("Recall") = some 1 ∧
    (metricsRow y y beta).lookup ("Fbeta Score") = some 1 ∧
    ∀ i j : ℕ, i ≠ j → ((confusion_matrix y y).getD i []).getD j 0 = 0 := by
  refine ⟨rfl, ?_, ?_, ?_, fun i j hij => confusion_matrix_self_offdiag y i j hij⟩
  · simp [metricsRow, List.lookup, precision_score_self y hpos]
  · simp [metricsRow, List.lookup, recall_score_self y hpos]
  · simp [metricsRow, List.lookup, fbeta_score_self beta y hpos]

/-- Claim C6, instantiated: the theorem applied at `y = [true]`. -/
theorem C6_perfect_prediction_witness :
    (metricsRow [true] [true] 1).lookup ("Precision") = some 1 ∧
    (metricsRow [true] [true] 1).lookup ("Fbeta Score") = some 1 ∧
    ((confusion_matrix [true] [true]).getD 0 []).getD 1 0 = 0 :=
  ⟨(C6_perfect_prediction [true] (by simp) (by simp) 1 "p").2.1,
   (C6_perfect_prediction [true] (by simp) (by simp) 1 "p").2.2.2.1,
   (C6_perfect_prediction [true] (by simp) (by simp) 1 "p").2.2.2.2 0 1
     (by omega)⟩

/-- Claim C7: when every prediction differs from its true label, the
written metrics have precision = 0 and recall = 0. -/
theorem C7_all_wrong_prediction (y_true y_pred : List Bool)
    (_hlen : y_true.length = y_pred.length)
    (hdiff : ∀ p ∈ y_true.zip y_pred, p.1 ≠ p.2) (beta : ℚ) (path : String) :
    compute_and_save_metrics y_true y_pred beta path
      = ⟨path, .metricsCsv (metricsRow y_true y_pred beta)⟩ ∧
    (metricsRow y_true y_pred beta).lookup ("Precision") = some 0 ∧
    (metricsRow y_true y_pred beta).lookup ("Recall") = some 0 := by
  have htp := countTP_eq_zero_of_all_ne y_true y_pred hdiff
  refine ⟨rfl, ?_, ?_⟩
  · simp [metricsRow, List.lookup, precision_score_of_tp_zero y_true y_pred htp]
  · simp [metricsRow, List.lookup, recall_score_of_tp_zero y_true y_pred htp]

/-- Claim C7, instantiated: the theorem applied at
`y_true = [true, false]`, `y_pred = [false, true]`. -/
theorem C7_all_wrong_prediction_witness :
    (metricsRow [true, false] [false, true] 2).lookup ("Precision") = some 0 ∧
    (metricsRow [true, false] [false, true] 2).lookup ("Recall") = some 0 :=
  ⟨(C7_all_wrong_prediction [true, false] [false, true] rfl (by decide) 2 "p").2.1,
   (C7_all_wrong_prediction [true, false] [false, true] rfl (by decide) 2 "p").2.2⟩

/-! ### Claim theorem C8: the feature-importance table -/

/-- Claim C8: the table written by `calculate_and_save_feature_importances`
holds exactly the given (feature, importance) pairs, sorted in descending
order of importance. -/
theorem C8_feature_importances_sorted (feature_names : List String)
    (importances : List ℚ) (save_path : String) :
    ∃ rows : List (String × ℚ),
      calculate_and_save_feature_importances feature_names importances
          save_path
        = ⟨save_path, .featureImportancesCsv rows⟩ ∧
      rows.Perm (feature_names.zip importances) ∧
      rows.Chain' (fun a b => b.2 ≤ a.2) := by
  refine ⟨sortByImportanceDesc (feature_names.zip importances), rfl,
    List.mergeSort_perm _ _, ?_⟩
  have hp : List.Pairwise
      (fun a b : String × ℚ => (decide (b.2 ≤ a.2)) = true)
      ((feature_names.zip importances).mergeSort
        (fun a b => decide (b.2 ≤ a.2))) := by
    refine List.sorted_mergeSort ?_ ?_ _
    · intro a b c h1 h2
      simp only [decide_eq_true_eq] at h1 h2 ⊢
      exact le_trans h2 h1
    · intro a b
      rcases le_total b.2 a.2 with h | h <;> simp [h]
  exact (hp.imp (fun h => of_decide_eq_true h)).chain'

/-! ### Helper lemmas for the confusion-matrix shape and sum -/

lemma labelsPresent_both (y_true y_pred : List Bool)
    (hf : false ∈ y_true ++ y_pred) (ht : true ∈ y_true ++ y_pred) :
    labelsPresent y_true y_pred = [false, true] := by
  unfold labelsPresent
  rw [if_pos hf, if_pos ht]
  rfl

lemma pairCount_cons (p : Bool × Bool) (l : List (Bool × Bool)) (a b : Bool) :
    pairCount (p :: l) a b
      = (if p.1 = a ∧ p.2 = b then 1 else 0) + pairCount l a b := by
  unfold pairCount
  rw [List.filter_cons]
  by_cases h : p.1 = a ∧ p.2 = b
  · rw [if_pos (by simp [h.1, h.2]), if_pos h, List.length_cons]
    omega
  · rw [if_neg (by simpa using h), if_neg h]
    omega

lemma pairCount_partition (zs : List (Bool × Bool)) :
    pairCount zs false false + pairCount zs false true
      + pairCount zs true false + pairCount zs true true = zs.length := by
  induction zs with
  | nil => rfl
  | cons p l ih =>
    rcases p with ⟨x, z⟩
    rw [List.length_cons]
    simp only [pairCount_cons]
    cases x <;> cases z <;> simp <;> omega

lemma pairCount_all (zs : List (Bool × Bool)) (a b : Bool)
    (h : ∀ p ∈ zs, p.1 = a ∧ p.2 = b) : pairCount zs a b = zs.length := by
  unfold pairCount
  rw [List.filter_eq_self.mpr]
  intro p hp
  rcases h p hp with ⟨h1, h2⟩
  simp [h1, h2]

lemma mem_zip_left {α β : Type} {p : α × β} {l1 : List α} {l2 : List β}
    (h : p ∈ l1.zip l2) : p.1 ∈ l1 ∧ p.2 ∈ l2 := by
  rcases p with ⟨x, z⟩
  exact List.of_mem_zip h

/-- Sum of all confusion-matrix entries equals the number of aligned
samples, for any pair of label vectors. -/
lemma confusion_matrix_sum (y_true y_pred : List Bool) :
    ((confusion_matrix y_true y_pred).map List.sum).sum
      = (y_true.zip y_pred).length := by
  by_cases hf : false ∈ y_true ++ y_pred
  · by_cases ht : true ∈ y_true ++ y_pred
    · rw [confusion_matrix, labelsPresent_both y_true y_pred hf ht]
      have := pairCount_partition (y_true.zip y_pred)
      simp only [List.map_cons, List.map_nil, List.sum_cons, List.sum_nil,
        cmCount]
      omega
    · have hall : ∀ p ∈ y_true.zip y_pred, p.1 = false ∧ p.2 = false := by
        intro p hp
        rcases mem_zip_left hp with ⟨h1, h2⟩
        constructor
        · cases hx : p.1
          · rfl
          · exact absurd (List.mem_append_left y_pred (hx ▸ h1)) ht
        · cases hx : p.2
          · rfl
          · exact absurd (List.mem_append_right y_true (hx ▸ h2)) ht
      rw [confusion_matrix]
      unfold labelsPresent
      rw [if_pos hf, if_neg ht]
      simp only [List.map_cons, List.map_nil, List.sum_cons, List.sum_nil,
        List.append_nil, cmCount]
      rw [pairCount_all _ _ _ hall]
      omega
  · by_cases ht : true ∈ y_true ++ y_pred
    · have hall : ∀ p ∈ y_true.zip y_pred, p.1 = true ∧ p.2 = true := by
        intro p hp
        rcases mem_zip_left hp with ⟨h1, h2⟩
        constructor
        · cases hx : p.1
          · exact absurd (List.mem_append_left y_pred (hx ▸ h1)) hf
          · rfl
        · cases hx : p.2
          · exact absurd (List.mem_append_right y_true (hx ▸ h2)) hf
          · rfl
      rw [confusion_matrix]
      unfold labelsPresent
      rw [if_neg hf, if_pos ht]
      simp only [List.map_cons, List.map_nil, List.sum_cons, List.sum_nil,
        List.nil_append, cmCount]
      rw [pairCount_all _ _ _ hall]
      omega
    · have hnil : y_true = [] := by
        rw [List.eq_nil_iff_forall_not_mem]
        intro a ha
        cases a
        · exact hf (List.mem_append_left y_pred ha)
        · exact ht (List.mem_append_left y_pred ha)
      rw [confusion_matrix]
      unfold labelsPresent
      rw [if_neg hf, if_neg ht]
      simp [hnil]

/-! ### Claim theorem C9 -/

/-- Claim C9: for equal-length binary label vectors in which both classes
occur, the confusion matrix written by `save_confusion_matrix` is 2×2; and
for any equal-length pair its entries sum to the number of samples. -/
theorem C9_confusion_matrix_shape_and_sum :
    (∀ y_true y_pred : List Bool, y_true.length = y_pred.length →
      false ∈ y_true ++ y_pred → true ∈ y_true ++ y_pred →
      (confusion_matrix y_true y_pred).length = 2 ∧
        ∀ r ∈ confusion_matrix y_true y_pred, r.length = 2) ∧
    (∀ (y_true y_pred : List Bool) (filename : String),
      y_true.length = y_pred.length →
      save_confusion_matrix y_true y_pred filename
        = ⟨filename, .confusionMatrixTxt (confusion_matrix y_true y_pred)⟩ ∧
      ((confusion_matrix y_true y_pred).map List.sum).sum
        = y_true.length) := by
  constructor
  · intro y_true y_pred _hlen hf ht
    rw [confusion_matrix, labelsPresent_both y_true y_pred hf ht]
    constructor
    · rfl
    · intro r hr
      simp only [List.map_cons, List.map_nil, List.mem_cons,
        List.not_mem_nil, or_false] at hr
      rcases hr with h | h <;> rw [h] <;> rfl
  · intro y_true y_pred filename hlen
    refine ⟨rfl, ?_⟩
    rw [confusion_matrix_sum, List.length_zip, hlen, min_self]

/-- Claim C9, instantiated: the theorem applied at
`y_true = [true, false]`, `y_pred = [true, true]`. -/
theorem C9_confusion_matrix_witness :
    (confusion_matrix [true, false] [true, true]).length = 2 ∧
    ((confusion_matrix [true, false] [true, true]).map List.sum).sum = 2 :=
  ⟨(C9_confusion_matrix_shape_and_sum.1 [true, false] [true, true] rfl
      (by simp) (by simp)).1,
   (C9_confusion_matrix_shape_and_sum.2 [true, false] [true, true] "f"
      rfl).2⟩

/-! ### Helper lemmas about the search -/

lemma foldl_best_mem (t : Params × ℚ) (ts : List (Params × ℚ)) :
    ts.foldl (fun b t2 => if b.2 < t2.2 then t2 else b) t = t ∨
      ts.foldl (fun b t2 => if b.2 < t2.2 then t2 else b) t ∈ ts := by
  induction ts generalizing t with
  | nil => exact Or.inl rfl
  | cons x xs ih =>
    rw [List.foldl_cons]
    rcases ih (if t.2 < x.2 then x else t) with h | h
    · rw [h]
      by_cases hc : t.2 < x.2
      · rw [if_pos hc]
        exact Or.inr (List.mem_cons_self x xs)
      · rw [if_neg hc]
        exact Or.inl rfl
    · exact Or.inr (List.mem_cons_of_mem x h)

lemma foldl_best_le (t : Params × ℚ) (ts : List (Params × ℚ)) :
    t.2 ≤ (ts.foldl (fun b t2 => if b.2 < t2.2 then t2 else b) t).2 ∧
      ∀ x ∈ ts, x.2 ≤ (ts.foldl (fun b t2 => if b.2 < t2.2 then t2 else b) t).2 := by
  induction ts generalizing t with
  | nil => exact ⟨le_refl _, by simp⟩
  | cons x xs ih =>
    rw [List.foldl_cons]
    obtain ⟨h1, h2⟩ := ih (if t.2 < x.2 then x else t)
    constructor
    · refine le_trans ?_ h1
      by_cases hc : t.2 < x.2
      · rw [if_pos hc]
        exact le_of_lt hc
      · rw [if_neg hc]
    · intro z hz
      rcases List.mem_cons.mp hz with rfl | h
      · refine le_trans ?_ h1
        by_cases hc : t.2 < z.2
        · rw [if_pos hc]
        · rw [if_neg hc]
          exact le_of_not_lt hc
      · exact h2 z h

lemma best_trial_some (l : List (Params × ℚ)) (h : l ≠ []) :
    ∃ b, best_trial l = some b := by
  cases l with
  | nil => exact absurd rfl h
  | cons t ts => exact ⟨_, rfl⟩

lemma best_trial_mem (l : List (Params × ℚ)) (b : Params × ℚ)
    (h : best_trial l = some b) : b ∈ l := by
  cases l with
  | nil => cases h
  | cons t ts =>
    simp only [best_trial, Option.some.injEq] at h
    subst h
    rcases foldl_best_mem t ts with hm | hm
    · rw [hm]
      exact List.mem_cons_self t ts
    · exact List.mem_cons_of_mem t hm

lemma best_trial_le (l : List (Params × ℚ)) (b : Params × ℚ)
    (h : best_trial l = some b) : ∀ x ∈ l, x.2 ≤ b.2 := by
  cases l with
  | nil => cases h
  | cons t ts =>
    simp only [best_trial, Option.some.injEq] at h
    subst h
    intro x hx
    rcases List.mem_cons.mp hx with hm | hm
    · rw [hm]
      exact (foldl_best_le t ts).1
    · exact (foldl_best_le t ts).2 x hm

lemma study_trials_ne_nil (fit : Fit) (X : List Row) (y : List Bool)
    (beta : ℚ) (stream : ℕ → Draw) :
    study_trials fit X y beta stream ≠ [] := by
  intro h
  have hl := congrArg List.length h
  simp [study_trials] at hl

lemma objective_fold_scores_length (fit : Fit) (X : List Row) (y : List Bool)
    (beta : ℚ) (p : Params) :
    (objective_fold_scores fit X y beta p).length = 5 := by
  simp [objective_fold_scores, cross_val_score, kfold_test_bounds]

/-! ### Claim theorems C1, C2, C3 -/

/-- Claim C1: every run of `decision_tree_experiment` writes exactly five
artifacts, to the five experiment-parameterized paths, in source order, and
nothing else. -/
theorem C1_writes_exactly_five_artifacts (fit : Fit) (stream : ℕ → Draw)
    (X_train : List Row) (y_train : List Bool) (X_test : List Row)
    (y_test : List Bool) (feature_names : List String) (beta : ℚ)
    (experiment_dictionary model_directory experiment_number : String) :
    (decision_tree_experiment fit stream X_train y_train X_test y_test
        feature_names beta experiment_dictionary model_directory
        experiment_number).map FileWrite.path
      = [s!"results/{experiment_dictionary}/hyperparameters.csv",
         s!"results/{experiment_dictionary}/metrics.csv",
         s!"results/{experiment_dictionary}/feature_importances.csv",
         s!"results/{experiment_dictionary}/confusion_matrix.txt",
         s!"models/{model_directory}/{experiment_number}.joblib"] := by
  obtain ⟨b, hb⟩ := best_trial_some _
    (study_trials_ne_nil fit X_train y_train beta stream)
  simp [decision_tree_experiment, hb, compute_and_save_metrics,
    calculate_and_save_feature_importances, save_confusion_matrix]

/-- Claim C2: all four experiment calls pass beta = 2, the search runs
exactly 100 trials, and the objective scores over exactly 5
cross-validation folds. -/
theorem C2_fixed_configuration :
    (∀ a ∈ run_decision_tree_args, a.beta = 2) ∧
    (∀ (fit : Fit) (X : List Row) (y : List Bool) (beta : ℚ)
        (stream : ℕ → Draw),
      (study_trials fit X y beta stream).length = 100) ∧
    (∀ (fit : Fit) (X : List Row) (y : List Bool) (beta : ℚ) (p : Params),
      (objective_fold_scores fit X y beta p).length = 5) := by
  refine ⟨?_, ?_, ?_⟩
  · intro a ha
    simp only [run_decision_tree_args, List.mem_cons, List.not_mem_nil,
      or_false] at ha
    rcases ha with h | h | h | h <;> subst h <;> rfl
  · intro fit X y beta stream
    simp [study_trials]
  · intro fit X y beta p
    exact objective_fold_scores_length fit X y beta p

/-- Claim C3: the search objective is the mean of the per-fold F-beta
scores over the 5 folds, the best trial's score is maximal among all
trials, and the optimized quantity is F-beta, not recall (the log label
notwithstanding). -/
theorem C3_objective_is_fbeta_mean :
    (∀ (fit : Fit) (X : List Row) (y : List Bool) (beta : ℚ) (t : Draw),
      (objective fit X y beta t).2
        = (objective_fold_scores fit X y beta (sample_params t)).sum / 5) ∧
    (∀ (trials : List (Params × ℚ)) (b : Params × ℚ),
      best_trial trials = some b → b ∈ trials ∧ ∀ x ∈ trials, x.2 ≤ b.2) ∧
    fbeta_score 2 [true, false] [true, true]
      ≠ recall_score [true, false] [true, true] := by
  refine ⟨?_, ?_, ?_⟩
  · intro fit X y beta t
    simp only [objective, listMean, objective_fold_scores_length]
    norm_num
  · intro trials b h
    exact ⟨best_trial_mem trials b h, best_trial_le trials b h⟩
  · norm_num [fbeta_score, recall_score, countTP, countFP, countFN,
      List.filter]

/-! ### Concrete instances used by the witnesses -/

/-- A concrete training routine for witnesses: predicts negative always. -/
def demoFit : Fit := fun _ _ _ => ⟨fun _ => false, [1]⟩

/-- A concrete trial draw. -/
def demoDraw : Draw := ⟨0, 0, 0, false⟩

/-- A second concrete trial draw, sampling a different `max_depth`. -/
def demoDraw2 : Draw := ⟨1, 0, 0, false⟩

/-- A concrete 5-row training matrix. -/
def demoXTrain : List Row := [[0], [1], [2], [3], [4]]

/-- Concrete training labels. -/
def demoYTrain : List Bool := [false, true, false, true, false]

/-- A concrete hyperparameter set. -/
def demoParamsA : Params := ⟨1, 1, 1, none⟩

/-- Another concrete hyperparameter set. -/
def demoParamsB : Params := ⟨2, 1, 1, none⟩

/-- Claim C2, instantiated at concrete arguments. -/
theorem C2_fixed_configuration_witness :
    (⟨2, "decision_tree_experiment1", "decision_tree", "1"⟩ :
        ExperimentArgs).beta = 2 ∧
    (study_trials demoFit [] [] 2 (fun _ => demoDraw)).length = 100 ∧
    (objective_fold_scores demoFit [] [] 2 (sample_params demoDraw)).length
      = 5 :=
  ⟨C2_fixed_configuration.1 _ (by simp [run_decision_tree_args]),
   C2_fixed_configuration.2.1 demoFit [] [] 2 (fun _ => demoDraw),
   C2_fixed_configuration.2.2 demoFit [] [] 2 (sample_params demoDraw)⟩

/-- Claim C3, instantiated: the objective at a concrete draw, and the
best trial of a concrete two-trial study. -/
theorem C3_objective_is_fbeta_mean_witness :
    (objective demoFit [] [] 2 demoDraw).2
      = (objective_fold_scores demoFit [] [] 2 (sample_params demoDraw)).sum
        / 5 ∧
    (demoParamsB, (1 : ℚ)) ∈ [(demoParamsA, (0 : ℚ)), (demoParamsB, 1)] ∧
    (demoParamsA, (0 : ℚ)).2 ≤ (demoParamsB, (1 : ℚ)).2 := by
  have hbt : best_trial [(demoParamsA, (0 : ℚ)), (demoParamsB, 1)]
      = some (demoParamsB, 1) := by
    norm_num [best_trial]
  exact ⟨C3_objective_is_fbeta_mean.1 demoFit [] [] 2 demoDraw,
    (C3_objective_is_fbeta_mean.2.1 _ _ hbt).1,
    (C3_objective_is_fbeta_mean.2.1 _ _ hbt).2 _ (List.mem_cons_self _ _)⟩

/-! ### Claim theorem C10: the hyperparameter search space -/

/-- The search space of lines 41–44: `max_depth` an integer in [1, 50],
`min_samples_split` in [0.001, 1], `min_samples_leaf` in [0.001, 0.5],
`class_weight` either None or "balanced". -/
def ValidParams (p : Params) : Prop :=
  1 ≤ p.max_depth ∧ p.max_depth ≤ 50 ∧
  1 / 1000 ≤ p.min_samples_split ∧ p.min_samples_split ≤ 1 ∧
  1 / 1000 ≤ p.min_samples_leaf ∧ p.min_samples_leaf ≤ 1 / 2 ∧
  (p.class_weight = none ∨ p.class_weight = some ("balanced"))

lemma suggest_int_bounds (raw : ℕ) :
    1 ≤ suggest_int 1 50 raw ∧ suggest_int 1 50 raw ≤ 50 := by
  unfold suggest_int
  have h1 : (0 : ℤ) ≤ (raw : ℤ) % (50 - 1 + 1) :=
    Int.emod_nonneg _ (by norm_num)
  have h2 : (raw : ℤ) % (50 - 1 + 1) < 50 - 1 + 1 :=
    Int.emod_lt_of_pos _ (by norm_num)
  omega

lemma suggest_float_bounds (lo hi : ℚ) (hlohi : lo ≤ hi) (raw : ℚ) :
    lo ≤ suggest_float lo hi raw ∧ suggest_float lo hi raw ≤ hi := by
  unfold suggest_float
  have h0 : 0 ≤ min (max raw 0) 1 := le_min (le_max_right raw 0) zero_le_one
  have h1 : min (max raw 0) 1 ≤ 1 := min_le_right _ _
  constructor
  · nlinarith
  · nlinarith

lemma sample_params_valid (t : Draw) : ValidParams (sample_params t) := by
  obtain ⟨h1, h2⟩ := suggest_int_bounds t.max_depth_raw
  obtain ⟨h3, h4⟩ := suggest_float_bounds (1 / 1000) 1 (by norm_num)
    t.min_samples_split_raw
  obtain ⟨h5, h6⟩ := suggest_float_bounds (1 / 1000) (1 / 2) (by norm_num)
    t.min_samples_leaf_raw
  refine ⟨h1, h2, h3, h4, h5, h6, ?_⟩
  cases hb : t.class_weight_raw <;>
    simp [sample_params, suggest_categorical, hb]

/-- Claim C10: every sampled hyperparameter candidate lies in the fixed
search space, and the hyperparameters row the experiment saves consists of
exactly the four fields, with values in those bounds. -/
theorem C10_search_space_invariant :
    (∀ t : Draw, ValidParams (sample_params t)) ∧
    (∀ (fit : Fit) (stream : ℕ → Draw) (X_train : List Row)
        (y_train : List Bool) (X_test : List Row) (y_test : List Bool)
        (feature_names : List String) (beta : ℚ)
        (experiment_dictionary model_directory experiment_number : String),
      ∃ p : Params, ValidParams p ∧
        (hyperparameters_row p).map Prod.fst
          = ["max_depth", "min_samples_split", "min_samples_leaf",
             "class_weight"] ∧
        (decision_tree_experiment fit stream X_train y_train X_test y_test
            feature_names beta experiment_dictionary model_directory
            experiment_number).head?
          = some ⟨s!"results/{experiment_dictionary}/hyperparameters.csv",
              .hyperparametersCsv (hyperparameters_row p)⟩) := by
  refine ⟨sample_params_valid, ?_⟩
  intro fit stream X_train y_train X_test y_test feature_names beta d m n
  obtain ⟨b, hb⟩ := best_trial_some _
    (study_trials_ne_nil fit X_train y_train beta stream)
  refine ⟨b.1, ?_, rfl, ?_⟩
  · have hmem := best_trial_mem _ _ hb
    simp only [study_trials, List.mem_map] at hmem
    obtain ⟨i, _, hib⟩ := hmem
    rw [← hib]
    exact sample_params_valid (stream i)
  · simp [decision_tree_experiment, hb]

/-! ### Claim C4: determinism fails without a fixed draw stream -/

lemma study_trials_const (fit : Fit) (X : List Row) (y : List Bool)
    (beta : ℚ) (d : Draw) :
    study_trials fit X y beta (fun _ => d)
      = List.replicate 100 (objective fit X y beta d) := by
  show List.map (fun i => objective fit X y beta d) (List.range 100) = _
  rw [List.map_const', List.length_range]

lemma foldl_keep_const (c : Params × ℚ) (n : ℕ) :
    (List.replicate n c).foldl (fun b t2 => if b.2 < t2.2 then t2 else b) c
      = c := by
  induction n with
  | zero => rfl
  | succ k ih =>
    rw [List.replicate_succ, List.foldl_cons, ite_self]
    exact ih

lemma best_trial_replicate_succ (c : Params × ℚ) (n : ℕ) :
    best_trial (List.replicate (n + 1) c) = some c := by
  rw [List.replicate_succ]
  simp only [best_trial, Option.some.injEq]
  exact foldl_keep_const c n

lemma best_trial_study_const (fit : Fit) (X : List Row) (y : List Bool)
    (beta : ℚ) (d : Draw) :
    best_trial (study_trials fit X y beta (fun _ => d))
      = some (objective fit X y beta d) := by
  rw [study_trials_const]
  exact best_trial_replicate_succ _ 99

/-- Claim C4 fails on the code: two runs on equal data inputs, differing
only in the ambient random draws (no seed is fixed anywhere), produce
different best hyperparameters and hence different artifacts. -/
theorem C4_counterexample :
    decision_tree_experiment demoFit (fun _ => demoDraw) demoXTrain
        demoYTrain [[0]] [true] ["a"] 2 "d" "m" "1"
      ≠ decision_tree_experiment demoFit (fun _ => demoDraw2) demoXTrain
        demoYTrain [[0]] [true] ["a"] 2 "d" "m" "1" := by
  intro h
  have h2 := congrArg List.head? h
  simp only [decision_tree_experiment, best_trial_study_const,
    List.head?_cons] at h2
  simp [objective, hyperparameters_row, sample_params, suggest_int,
    suggest_float, suggest_categorical, demoDraw, demoDraw2] at h2

/-- Claim C4, amended: `decision_tree_experiment` is deterministic in its
inputs together with the sampler's draws — runs whose first 100 draws
agree produce identical outputs (the code itself fixes no seed, so two
real runs need not satisfy this agreement). -/
theorem C4_deterministic_given_draws (fit : Fit) (s1 s2 : ℕ → Draw)
    (X_train : List Row) (y_train : List Bool) (X_test : List Row)
    (y_test : List Bool) (feature_names : List String) (beta : ℚ)
    (experiment_dictionary model_directory experiment_number : String)
    (h : ∀ i : ℕ, i < 100 → s1 i = s2 i) :
    decision_tree_experiment fit s1 X_train y_train X_test y_test
        feature_names beta experiment_dictionary model_directory
        experiment_number
      = decision_tree_experiment fit s2 X_train y_train X_test y_test
        feature_names beta experiment_dictionary model_directory
        experiment_number := by
  have hst : study_trials fit X_train y_train beta s1
      = study_trials fit X_train y_train beta s2 := by
    unfold study_trials
    exact List.map_congr_left (fun i hi => by rw [h i (List.mem_range.mp hi)])
  unfold decision_tree_experiment
  rw [hst]

/-- Claim C4 (amended), instantiated: two streams agreeing on the first
100 draws but not beyond give identical traces. -/
theorem C4_deterministic_given_draws_witness :
    decision_tree_experiment demoFit (fun _ => demoDraw) demoXTrain
        demoYTrain [[0]] [true] ["a"] 2 "d" "m" "1"
      = decision_tree_experiment demoFit
        (fun i => if i < 100 then demoDraw else demoDraw2) demoXTrain
        demoYTrain [[0]] [true] ["a"] 2 "d" "m" "1" :=
  C4_deterministic_given_draws demoFit _ _ demoXTrain demoYTrain [[0]]
    [true] ["a"] 2 "d" "m" "1" (fun i hi => by rw [if_pos hi])

/-! ### Claim theorem C5: failure propagation across experiments -/

/-- Claim C5: `run_decision_tree` catches nothing — if experiment `k`
raises after experiments before it succeeded, the run's trace holds
exactly the writes of experiments up to and including `k`'s partial
writes, the error propagates, and no later experiment writes anything. -/
theorem C5_failure_aborts_later_experiments
    (outcomes : ℕ → ExperimentOutcome) (k : ℕ) (hk : k < 4) (e : String)
    (herr : (outcomes k).error = some e)
    (hok : ∀ j : ℕ, j < k → (outcomes j).error = none) :
    run_decision_tree_trace outcomes
      = ((((experiments_list outcomes).take k).map
            ExperimentOutcome.writes).flatten ++ (outcomes k).writes,
         some e) := by
  interval_cases k
  · simp [run_decision_tree_trace, run_experiments_seq, experiments_list,
      herr]
  · have h0 := hok 0 (by norm_num)
    simp [run_decision_tree_trace, run_experiments_seq, experiments_list,
      herr, h0]
  · have h0 := hok 0 (by norm_num)
    have h1 := hok 1 (by norm_num)
    simp [run_decision_tree_trace, run_experiments_seq, experiments_list,
      herr, h0, h1]
  · have h0 := hok 0 (by norm_num)
    have h1 := hok 1 (by norm_num)
    have h2 := hok 2 (by norm_num)
    simp [run_decision_tree_trace, run_experiments_seq, experiments_list,
      herr, h0, h1, h2]

/-- A concrete file write for the C5 witness. -/
def demoWrite : FileWrite := ⟨"w", .modelJoblib demoParamsA⟩

/-- Concrete outcomes: experiment 2 (index 1) fails, the rest succeed. -/
def demoOutcomes : ℕ → ExperimentOutcome := fun j =>
  ⟨[demoWrite], if j = 1 then some ("boom") else none⟩

/-- Claim C5, instantiated at the concrete outcomes. -/
theorem C5_failure_aborts_later_experiments_witness :
    run_decision_tree_trace demoOutcomes
      = ((((experiments_list demoOutcomes).take 1).map
            ExperimentOutcome.writes).flatten ++ (demoOutcomes 1).writes,
         some ("boom")) :=
  C5_failure_aborts_later_experiments demoOutcomes 1 (by norm_num) "boom"
    (by simp [demoOutcomes])
    (by intro j hj; interval_cases j; simp [demoOutcomes])

end DecisionTree
